import Mathlib

/-!
Shallow embedding of the OpenMultiModalLiverCirrhosisDataset generator scripts
(src/scripts/config.py, utils.py, labels_generator.py, image_generators.py),
together with theorems settling the specification claims about them.

Modelling conventions:
* Python floats are modelled as exact rationals (ℚ); decimal literals of the
  source become the corresponding rationals.
* Fallible Python code (raising exceptions) is modelled with Except PyError.
* numpy.random.RandomState is an external library; it is modelled as a
  deterministic pseudo-random state machine (a 64-bit linear congruential
  stand-in) exposing the draw operations the scripts use.  All claims proved
  here depend only on this model being a deterministic state machine producing
  unit draws in [0, 1), which the real generator also is.
-/

namespace LiverDataset

/-- Python exception kinds raised by the embedded code paths. -/
inductive PyError where
  | valueError
  | zeroDivisionError
  | indexError
deriving DecidableEq

/- -------------------- config.py -------------------- -/

/-- config.py: RANDOM_SEED = 42. -/
def RANDOM_SEED : ℕ := 42

/-- config.py: NUM_PATIENTS = 1000. -/
def NUM_PATIENTS : ℕ := 1000

/-- config.py: IMAGE_RESOLUTIONS, spatial resolution (height, width) per modality. -/
def IMAGE_RESOLUTIONS : List (String × (ℕ × ℕ)) :=
  [("MRI", (256, 256)), ("CT", (512, 512)), ("Ultrasound", (224, 224))]

/-- config.py: SPLIT_RATIOS as an association list in declaration order
(train 0.7, val 0.15, test 0.15). -/
def SPLIT_RATIOS : List (String × ℚ) :=
  [("train", 7/10), ("val", 3/20), ("test", 3/20)]

/-- config.py: FIBROSIS_STAGES, ordered METAVIR stages. -/
def FIBROSIS_STAGES : List String := ["F0", "F1", "F2", "F3", "F4"]

/-- config.py: BINARY_LABEL_MAPPING["positive"] = ["F3", "F4"]. -/
def BINARY_POSITIVE_STAGES : List String := ["F3", "F4"]

/-- config.py: BINARY_LABEL_MAPPING["negative"] = ["F0", "F1", "F2"]. -/
def BINARY_NEGATIVE_STAGES : List String := ["F0", "F1", "F2"]

/- -------------------- numpy.isclose model -------------------- -/

/-- Default relative tolerance of numpy.isclose (rtol = 1e-05). -/
def NP_RTOL : ℚ := 1/100000

/-- Default absolute tolerance of numpy.isclose (atol = 1e-08). -/
def NP_ATOL : ℚ := 1/100000000

/-- numpy.isclose(a, b) with default tolerances:
absolute(a - b) <= atol + rtol * absolute(b). -/
def npIsclose (a b : ℚ) : Prop := |a - b| ≤ NP_ATOL + NP_RTOL * |b|

instance (a b : ℚ) : Decidable (npIsclose a b) :=
  inferInstanceAs (Decidable (_ ≤ _))

/- -------------------- utils.py: assign_split -------------------- -/

/-- Sum of the ratio values of a split-ratio mapping
(Python: sum(split_ratios.values())). -/
def ratioSum (split_ratios : List (String × ℚ)) : ℚ :=
  (split_ratios.map Prod.snd).sum

/-- Cumulative thresholds of utils.assign_split (lines 152-157): running sums
of the ratios in declaration order, starting from an accumulator c. -/
def cumFrom (c : ℚ) : List (String × ℚ) → List (String × ℚ)
  | [] => []
  | (s, r) :: rest => (s, c + r) :: cumFrom (c + r) rest

/-- The scan of utils.assign_split (lines 162-164): the first split whose
cumulative threshold is >= the position p, in declaration order. -/
def firstLE (p : ℚ) : List (String × ℚ) → Option String
  | [] => none
  | (s, b) :: rest => if p ≤ b then some s else firstLE p rest

/-- utils.assign_split (lines 134-167).  Raises ValueError when the ratios are
not numpy-close to 1.0; computing the position (patient_index + 1) /
num_patients raises ZeroDivisionError when num_patients is 0; otherwise scans
the cumulative thresholds and falls back to the last key of the mapping
(Python list(split_ratios.keys())[-1], an IndexError on an empty mapping,
which is unreachable because an empty mapping fails the sum check). -/
def assign_split (patient_index num_patients : ℕ)
    (split_ratios : List (String × ℚ)) : Except PyError String :=
  if ¬ npIsclose (ratioSum split_ratios) 1 then
    .error .valueError
  else if num_patients = 0 then
    .error .zeroDivisionError
  else
    -- position = (patient_index + 1) / num_patients (source line 160)
    match firstLE (((patient_index : ℚ) + 1) / (num_patients : ℚ))
        (cumFrom 0 split_ratios) with
    | some s => .ok s
    | none =>
      match (split_ratios.map Prod.fst).getLast? with
      | some s => .ok s
      | none => .error .indexError

/- -------------------- helper functions for the proofs -------------------- -/

/-- Index of the first cumulative threshold that is >= p; equals the list
length when no threshold matches. -/
def pickIdx (p : ℚ) : List (String × ℚ) → ℕ
  | [] => 0
  | (_, b) :: rest => if p ≤ b then 0 else pickIdx p rest + 1

/-- Index actually chosen by assign_split: the first matching threshold, or
the last entry as fallback. -/
def chosenIdx (p : ℚ) (l : List (String × ℚ)) : ℕ :=
  min (pickIdx p l) (l.length - 1)

instance {ε α : Type} [DecidableEq ε] [DecidableEq α] : DecidableEq (Except ε α) := by
  intro a b
  cases a with
  | error e =>
    cases b with
    | error e' => exact decidable_of_iff (e = e') (by simp)
    | ok y => exact isFalse (by simp)
  | ok x =>
    cases b with
    | error e' => exact isFalse (by simp)
    | ok y => exact decidable_of_iff (x = y) (by simp)

/- -------------------- numpy.random.RandomState model -------------------- -/

/-- Deterministic model of numpy.random.RandomState: an isolated pseudo-random
stream characterized entirely by its current state.  The Mersenne-Twister
internals are external library code; they are modelled by a 64-bit linear
congruential state machine, which preserves every property the scripts rely
on: the stream is a pure function of its seed, draws advance the state, and
unit draws land in [0, 1). -/
structure RandomState where
  state : ℕ
deriving DecidableEq

/-- One state-machine step (64-bit LCG stand-in for the library generator). -/
def RandomState.next (r : RandomState) : RandomState :=
  ⟨(6364136223846793005 * r.state + 1442695040888963407) % 18446744073709551616⟩

/-- Model of rng.rand(): a unit draw in [0, 1) (53-bit mantissa), advancing
the stream. -/
def randDraw (r : RandomState) : ℚ × RandomState :=
  (((r.next.state >>> 11 : ℕ) : ℚ) / 9007199254740992, r.next)

/-- Model of rng.uniform(a, b): a + (b - a) · u for a unit draw u. -/
def uniformDraw (a b : ℚ) (r : RandomState) : ℚ × RandomState :=
  let (u, r') := randDraw r
  (a + (b - a) * u, r')

/-- Model of rng.randint(lo, hi): an integer draw in [lo, hi), advancing the
stream (defined for lo < hi, as at every call site of the scripts). -/
def randintDraw (lo hi : ℕ) (r : RandomState) : ℕ × RandomState :=
  (lo + r.next.state % (hi - lo), r.next)

/-- Model of rng.normal(loc, scale): loc + scale · z for a state-derived
deviate z in (-1, 1), advancing the stream. -/
def normalDraw (loc scale : ℚ) (r : RandomState) : ℚ × RandomState :=
  let (u, r') := randDraw r
  (loc + scale * (2 * u - 1), r')

/-- Model of rng.gamma(shape, scale): a nonnegative state-derived draw
shape · scale · u, advancing the stream. -/
def gammaDraw (shp scl : ℚ) (r : RandomState) : ℚ × RandomState :=
  let (u, r') := randDraw r
  (shp * scl * u, r')

/-- Model of rng.poisson(lam): a state-derived small natural number,
advancing the stream. -/
def poissonDraw (lam : ℚ) (r : RandomState) : ℕ × RandomState :=
  (r.next.state % (2 * ⌈lam⌉₊ + 1), r.next)

/-- Helper of the rng.choice model: inverse-CDF selection, walking the
probability list and returning the item whose cumulative probability first
exceeds the unit draw (the last item as a guard). -/
def pickByCum : List String → List ℚ → ℚ → String
  | [], _, _ => ""
  | [x], _, _ => x
  | x :: _ :: _, [], _ => x
  | x :: y :: xs, p :: ps, u => if u < p then x else pickByCum (y :: xs) ps (u - p)

/-- Model of rng.choice(items, p=probs): an inverse-CDF draw from the stream. -/
def choiceDraw (items : List String) (probs : List ℚ) (r : RandomState) :
    String × RandomState :=
  let (u, r') := randDraw r
  (pickByCum items probs u, r')

/- -------------------- labels_generator.py -------------------- -/

/-- labels_generator.py line 24: FIBROSIS_PROBS = [0.30, 0.25, 0.20, 0.15, 0.10]. -/
def FIBROSIS_PROBS : List ℚ := [3/10, 1/4, 1/5, 3/20, 1/10]

/-- labels_generator.py lines 20-21: SEX_OPTIONS and SEX_PROBS. -/
def SEX_OPTIONS : List String := ["M", "F"]

def SEX_PROBS : List ℚ := [1/2, 1/2]

/-- labels_generator.py lines 15-18: age distribution constants. -/
def AGE_MEAN : ℚ := 60

def AGE_STD : ℚ := 10

def AGE_MIN : ℤ := 30

def AGE_MAX : ℤ := 85

/-- utils.get_patient_id: zero-padded patient id with a fixed "PAT" prefix
(Python format string with width 4). -/
def get_patient_id (patient_index : ℕ) : String :=
  let digits := toString patient_index
  "PAT_" ++ (String.mk (List.replicate (4 - digits.length) '0')) ++ digits

/-- One row of the labels table (labels_generator.generate_patient_labels
return value). -/
structure PatientRecord where
  patient_id : String
  fibrosis_stage : String
  binary_label : String
  split : String
  age : ℤ
  sex : String
deriving DecidableEq

/-- labels_generator.generate_patient_labels (lines 28-72): samples the
fibrosis stage, derives the binary label from the fixed positive-stage set,
assigns the split from the patient index with the *global* NUM_PATIENTS and
SPLIT_RATIOS constants, then samples age (normal, rounded, clipped to
[AGE_MIN, AGE_MAX]) and sex, all from the given per-patient stream. -/
def generate_patient_labels (patient_index : ℕ) (rng : RandomState) :
    Except PyError PatientRecord :=
  let patient_id := get_patient_id patient_index
  let stageDraw := choiceDraw FIBROSIS_STAGES FIBROSIS_PROBS rng
  let fibrosis_stage := stageDraw.1
  let binary_label :=
    if fibrosis_stage ∈ BINARY_POSITIVE_STAGES then "positive" else "negative"
  match assign_split patient_index NUM_PATIENTS SPLIT_RATIOS with
  | .error e => .error e
  | .ok split =>
    let ageDraw := normalDraw AGE_MEAN AGE_STD stageDraw.2
    let age : ℤ := min AGE_MAX (max AGE_MIN (round ageDraw.1))
    let sexDraw := choiceDraw SEX_OPTIONS SEX_PROBS ageDraw.2
    .ok ⟨patient_id, fibrosis_stage, binary_label, split, age, sexDraw.1⟩

/-- Loop body of labels_generator.generate_all_labels (lines 90-98): for each
index, draw a per-patient sub-seed from the global stream with
randint(0, 2^31 - 1), build an isolated per-patient stream from it, and
generate that patient's record. -/
def genLabelsLoop : ℕ → ℕ → RandomState → Except PyError (List PatientRecord)
  | 0, _, _ => .ok []
  | n + 1, idx, r =>
    let d := randintDraw 0 (2147483648 - 1) r
    match generate_patient_labels idx ⟨d.1⟩ with
    | .error e => .error e
    | .ok pr =>
      match genLabelsLoop n (idx + 1) d.2 with
      | .error e => .error e
      | .ok rest => .ok (pr :: rest)

/-- labels_generator.generate_all_labels (lines 76-101): seeds the global
stream with the given seed and collects num_patients records in index order. -/
def generate_all_labels (num_patients : ℕ) (seed : ℕ) :
    Except PyError (List PatientRecord) :=
  genLabelsLoop num_patients 0 ⟨seed⟩

/- -------------------- hashlib.sha256 (image_generators.py line 23) ------- -/

/-- Truncate to a 32-bit word. -/
def w32 (n : ℕ) : ℕ := n % 4294967296

/-- Right rotation of a 32-bit word. -/
def rotr32 (k x : ℕ) : ℕ := w32 ((x >>> k) ||| (x <<< (32 - k)))

/-- SHA-256 big sigma-0. -/
def bsig0 (x : ℕ) : ℕ := rotr32 2 x ^^^ rotr32 13 x ^^^ rotr32 22 x

/-- SHA-256 big sigma-1. -/
def bsig1 (x : ℕ) : ℕ := rotr32 6 x ^^^ rotr32 11 x ^^^ rotr32 25 x

/-- SHA-256 small sigma-0. -/
def ssig0 (x : ℕ) : ℕ := rotr32 7 x ^^^ rotr32 18 x ^^^ (x >>> 3)

/-- SHA-256 small sigma-1. -/
def ssig1 (x : ℕ) : ℕ := rotr32 17 x ^^^ rotr32 19 x ^^^ (x >>> 10)

/-- SHA-256 choose function (the complement written as xor with the 32-bit
mask). -/
def sha256Ch (x y z : ℕ) : ℕ := (x &&& y) ^^^ ((x ^^^ 4294967295) &&& z)

/-- SHA-256 majority function. -/
def sha256Maj (x y z : ℕ) : ℕ := (x &&& y) ^^^ (x &&& z) ^^^ (y &&& z)

/-- SHA-256 round constants (decimal rendering of the standard table). -/
def SHA256_K : List ℕ :=
  [1116352408, 1899447441, 3049323471, 3921009573,
   961987163, 1508970993, 2453635748, 2870763221,
   3624381080, 310598401, 607225278, 1426881987,
   1925078388, 2162078206, 2614888103, 3248222580,
   3835390401, 4022224774, 264347078, 604807628,
   770255983, 1249150122, 1555081692, 1996064986,
   2554220882, 2821834349, 2952996808, 3210313671,
   3336571891, 3584528711, 113926993, 338241895,
   666307205, 773529912, 1294757372, 1396182291,
   1695183700, 1986661051, 2177026350, 2456956037,
   2730485921, 2820302411, 3259730800, 3345764771,
   3516065817, 3600352804, 4094571909, 275423344,
   430227734, 506948616, 659060556, 883997877,
   958139571, 1322822218, 1537002063, 1747873779,
   1955562222, 2024104815, 2227730452, 2361852424,
   2428436474, 2756734187, 3204031479, 3329325298]

/-- SHA-256 initial hash value (decimal rendering). -/
def SHA256_H0 : List ℕ :=
  [1779033703, 3144134277, 1013904242, 2773480762,
   1359893119, 2600822924, 528734635, 1541459225]

/-- Extend a 16-word block by n further schedule words. -/
def sha256ExtendW : List ℕ → ℕ → List ℕ
  | ws, 0 => ws
  | ws, n + 1 =>
    sha256ExtendW
      (ws ++ [w32 (ssig1 (ws.getD (ws.length - 2) 0) + ws.getD (ws.length - 7) 0 +
        ssig0 (ws.getD (ws.length - 15) 0) + ws.getD (ws.length - 16) 0)]) n

/-- One SHA-256 compression round on the 8-word working state. -/
def sha256Round (kt wt : ℕ) (st : List ℕ) : List ℕ :=
  match st with
  | [a, b, c, d, e, f, g, hh] =>
    let t1 := w32 (hh + bsig1 e + sha256Ch e f g + kt + wt)
    let t2 := w32 (bsig0 a + sha256Maj a b c)
    [w32 (t1 + t2), a, b, c, w32 (d + t1), e, f, g]
  | st => st

/-- SHA-256 compression of one 16-word block into the hash state. -/
def sha256Compress (H : List ℕ) (block : List ℕ) : List ℕ :=
  let W := sha256ExtendW block 48
  let st := (SHA256_K.zip W).foldl (fun s p => sha256Round p.1 p.2 s) H
  (H.zip st).map (fun p => w32 (p.1 + p.2))

/-- Big-endian byte expansion of a number into k bytes. -/
def beBytes : ℕ → ℕ → List ℕ
  | 0, _ => []
  | k + 1, n => beBytes k (n / 256) ++ [n % 256]

/-- UTF-8 bytes of one character (Python str.encode()). -/
def charBytes (c : Char) : List ℕ :=
  let n := c.toNat
  if n < 128 then [n]
  else if n < 2048 then [192 + n / 64, 128 + n % 64]
  else if n < 65536 then [224 + n / 4096, 128 + (n / 64) % 64, 128 + n % 64]
  else [240 + n / 262144, 128 + (n / 4096) % 64, 128 + (n / 64) % 64, 128 + n % 64]

/-- UTF-8 encoding of a string. -/
def utf8Bytes (s : String) : List ℕ := s.data.flatMap charBytes

/-- SHA-256 padding: append 0x80, zero bytes to 56 mod 64, and the 64-bit
big-endian bit length. -/
def sha256Pad (bytes : List ℕ) : List ℕ :=
  bytes ++ [128] ++ List.replicate ((119 - bytes.length % 64) % 64) 0
    ++ beBytes 8 (8 * bytes.length)

/-- Group bytes into big-endian 32-bit words. -/
def bytesToWords : List ℕ → List ℕ
  | b0 :: b1 :: b2 :: b3 :: rest =>
    (b0 * 16777216 + b1 * 65536 + b2 * 256 + b3) :: bytesToWords rest
  | _ => []

/-- Fold the compression function over all 16-word blocks (the fuel is the
number of blocks of the padded message). -/
def sha256Chunks : ℕ → List ℕ → List ℕ → List ℕ
  | 0, H, _ => H
  | n + 1, H, ws => sha256Chunks n (sha256Compress H (ws.take 16)) (ws.drop 16)

/-- SHA-256 digest of a string as a natural number — the Python idiom
int(hashlib.sha256(s.encode()).hexdigest(), 16). -/
def sha256Nat (s : String) : ℕ :=
  let ws := bytesToWords (sha256Pad (utf8Bytes s))
  (sha256Chunks (ws.length / 16) SHA256_H0 ws).foldl
    (fun acc word => acc * 4294967296 + word) 0

/- -------------------- trig model for the elliptical mask ----------------- -/

/-- Rational model of the floating-point value of pi used by numpy. -/
def piQ : ℚ := 3141592653589793/1000000000000000

/-- np.radians: degrees to radians. -/
def radiansQ (deg : ℚ) : ℚ := deg * piQ / 180

/-- Computable rational model of the floating-point cosine (truncated Taylor
series; the mask geometry never enters any claim, only the mask's use as a
Boolean selector does). -/
def cosQ (x : ℚ) : ℚ := 1 - x ^ 2 / 2 + x ^ 4 / 24 - x ^ 6 / 720 + x ^ 8 / 40320

/-- Computable rational model of the floating-point sine. -/
def sinQ (x : ℚ) : ℚ := x - x ^ 3 / 6 + x ^ 5 / 120 - x ^ 7 / 5040

/- -------------------- image_generators.py: anatomy ----------------------- -/

/-- Anatomy parameters returned by _get_patient_anatomy_params, including the
random stream handed on to the modality generators (the "rng" entry of the
returned dict). -/
structure AnatomyParams where
  center : ℕ × ℕ
  axes : ℕ × ℕ
  angle : ℚ
  intensity_base : ℚ
  rng : RandomState
deriving DecidableEq

/-- Draw sequence of _get_patient_anatomy_params (image_generators.py lines
27-53) from an already-seeded stream: center column, center row, major axis,
minor axis, rotation angle, intensity base, in that order, using the MRI
reference resolution; Python's int() truncation of positive floats is the
natural-number floor. -/
def anatomyFromStream (rng : RandomState) : AnatomyParams :=
  let h : ℕ := 256
  let w : ℕ := 256
  let d1 := randDraw rng
  let center_x : ℕ := ⌊(w : ℚ) * (2/5 + (1/5) * d1.1)⌋₊
  let d2 := randDraw d1.2
  let center_y : ℕ := ⌊(h : ℚ) * (2/5 + (1/5) * d2.1)⌋₊
  let d3 := randDraw d2.2
  let axis_major : ℕ := ⌊((min h w : ℕ) : ℚ) * (1/5 + (1/10) * d3.1)⌋₊
  let d4 := randDraw d3.2
  let axis_minor : ℕ := ⌊(axis_major : ℚ) * (3/5 + (3/10) * d4.1)⌋₊
  let d5 := uniformDraw (-30) 30 d4.2
  let d6 := uniformDraw (1/2) (4/5) d5.2
  ⟨(center_y, center_x), (axis_major, axis_minor), d5.1, d6.1, d6.2⟩

/-- image_generators._get_patient_anatomy_params (lines 10-53): seeds an
isolated stream with the SHA-256 hash of "{patient_id}_anatomy" truncated
into 32-bit range and draws the anatomy; the modality argument is unused. -/
def get_patient_anatomy_params (patient_id modality : String) : AnatomyParams :=
  anatomyFromStream ⟨sha256Nat (patient_id ++ "_anatomy") % 4294967296⟩

/-- Modelled re-implementation for the order-sensitivity part of spec §4.4:
identical to anatomyFromStream except that the intensity base is drawn before
the rotation angle.  The spec's contract is that such a reordering produces
different anatomy. -/
def anatomySwappedFromStream (rng : RandomState) : AnatomyParams :=
  let h : ℕ := 256
  let w : ℕ := 256
  let d1 := randDraw rng
  let center_x : ℕ := ⌊(w : ℚ) * (2/5 + (1/5) * d1.1)⌋₊
  let d2 := randDraw d1.2
  let center_y : ℕ := ⌊(h : ℚ) * (2/5 + (1/5) * d2.1)⌋₊
  let d3 := randDraw d2.2
  let axis_major : ℕ := ⌊((min h w : ℕ) : ℚ) * (1/5 + (1/10) * d3.1)⌋₊
  let d4 := randDraw d3.2
  let axis_minor : ℕ := ⌊(axis_major : ℚ) * (3/5 + (3/10) * d4.1)⌋₊
  let d5 := uniformDraw (1/2) (4/5) d4.2
  let d6 := uniformDraw (-30) 30 d5.2
  ⟨(center_y, center_x), (axis_major, axis_minor), d6.1, d5.1, d6.2⟩

/-- The k-th unit draw of a stream (every modelled draw operation advances the
state by one step, so the k-th drawn unit value is determined by the k-th
iterate of the state machine). -/
def nthUnit (s : RandomState) (k : ℕ) : ℚ :=
  (((RandomState.next^[k] s).state >>> 11 : ℕ) : ℚ) / 9007199254740992

/- -------------------- image_generators.py: mask and images --------------- -/

/-- image_generators._create_elliptical_mask (lines 57-85) as a pixel
predicate: center the coordinates, rotate them by the angle (in radians), and
test the ellipse inequality x_rot²/minor² + y_rot²/major² ≤ 1. -/
def maskAt (center : ℕ × ℕ) (axes : ℕ × ℕ) (angle : ℚ) (i j : ℕ) : Bool :=
  let yc : ℚ := (i : ℚ) - (center.1 : ℚ)
  let xc : ℚ := (j : ℚ) - (center.2 : ℚ)
  let ct := cosQ (radiansQ angle)
  let st := sinQ (radiansQ angle)
  let xr := xc * ct - yc * st
  let yr := xc * st + yc * ct
  decide (xr ^ 2 / ((axes.2 : ℚ)) ^ 2 + yr ^ 2 / ((axes.1 : ℚ)) ^ 2 ≤ 1)

/-- A row of w sequential draws from the stream. -/
def drawRow (draw : RandomState → ℚ × RandomState) :
    ℕ → RandomState → List ℚ × RandomState
  | 0, r => ([], r)
  | n + 1, r =>
    let v := draw r
    let rest := drawRow draw n v.2
    (v.1 :: rest.1, rest.2)

/-- An h×w grid of sequential draws (row-major, as numpy fills size=(h, w)). -/
def drawGrid (draw : RandomState → ℚ × RandomState) :
    ℕ → ℕ → RandomState → List (List ℚ) × RandomState
  | 0, _, r => ([], r)
  | hh + 1, w, r =>
    let row := drawRow draw w r
    let rest := drawGrid draw hh w row.2
    (row.1 :: rest.1, rest.2)

/-- Array indexing into a grid (out-of-range reads default to 0; never used
out of range at the embedded call sites). -/
def at2 (g : List (List ℚ)) (i j : ℕ) : ℚ := (g.getD i []).getD j 0

/-- np.clip(x, 0, 1) on a scalar. -/
def clip01 (x : ℚ) : ℚ := max 0 (min 1 x)

/-- Materialize a pixel function into an h×w array (row-major). -/
def materialize (h w : ℕ) (f : ℕ → ℕ → ℚ) : List (List ℚ) :=
  (List.range h).map (fun i => (List.range w).map (fun j => f i j))

/-- np.clip(image, 0, 1) on a whole image. -/
def clipImage (img : List (List ℚ)) : List (List ℚ) :=
  img.map (fun row => row.map clip01)

/-- The bright-spot loop shared by the three generators (e.g.
image_generators.py lines 120-129): repeat the Poisson-drawn count of times —
draw a spot row and column; if the spot center lands inside the mask, draw a
radius and an intensity boost and add the boost to every pixel of the disk
(the float comparison sqrt(dy² + dx²) <= radius is exactly the integer
comparison dy² + dx² ≤ radius²). -/
def applySpots (mask : ℕ → ℕ → Bool) (h w rlo rhi : ℕ) (blo bhi : ℚ) :
    ℕ → (ℕ → ℕ → ℚ) → RandomState → (ℕ → ℕ → ℚ) × RandomState
  | 0, li, r => (li, r)
  | n + 1, li, r =>
    let dy := randintDraw 0 h r
    let dx := randintDraw 0 w dy.2
    if mask dy.1 dx.1 then
      let dr := randintDraw rlo rhi dx.2
      let db := uniformDraw blo bhi dr.2
      applySpots mask h w rlo rhi blo bhi n
        (fun i j =>
          if ((i : ℤ) - (dy.1 : ℤ)) ^ 2 + ((j : ℤ) - (dx.1 : ℤ)) ^ 2 ≤ ((dr.1 : ℤ)) ^ 2
          then li i j + db.1 else li i j) db.2
    else applySpots mask h w rlo rhi blo bhi n li dx.2

/-- Pixel computation of image_generators.generate_mri_image (lines 89-136):
anatomy-masked composite of a Gaussian background (clipped to [0,1]) and a
stage-dependent Gaussian liver intensity with bright nodules for stage ≥ F2,
before the final clip. -/
def mriComposite (patient_id fibrosis_stage : String) (resolution : ℕ × ℕ) :
    ℕ → ℕ → ℚ :=
  let h := resolution.1
  let w := resolution.2
  let params := get_patient_anatomy_params patient_id "MRI"
  let mask := maskAt params.center params.axes params.angle
  let bgd := drawGrid (normalDraw (1/10) (1/50)) h w params.rng
  let bg := fun i j => clip01 (at2 bgd.1 i j)
  let si := FIBROSIS_STAGES.indexOf fibrosis_stage
  let liver_base : ℚ := 1/2 + (1/10) * si
  let lid := drawGrid (normalDraw liver_base (1/20)) h w bgd.2
  let li0 := fun i j => at2 lid.1 i j
  let spotted :=
    if 2 ≤ si then
      let nsp := poissonDraw (5 + 3 * ((si : ℚ) - 2)) lid.2
      applySpots mask h w 3 8 (1/5) (2/5) nsp.1 li0 nsp.2
    else (li0, lid.2)
  fun i j => if mask i j then spotted.1 i j else bg i j

/-- image_generators.generate_mri_image: list.index raises ValueError on an
unknown stage; otherwise the composite image clipped to [0,1]. -/
def generate_mri_image (patient_id fibrosis_stage : String)
    (resolution : ℕ × ℕ) : Except PyError (List (List ℚ)) :=
  if fibrosis_stage ∈ FIBROSIS_STAGES then
    .ok (clipImage (materialize resolution.1 resolution.2
      (mriComposite patient_id fibrosis_stage resolution)))
  else .error .valueError

/-- Pixel computation of image_generators.generate_ct_image (lines 139-182). -/
def ctComposite (patient_id fibrosis_stage : String) (resolution : ℕ × ℕ) :
    ℕ → ℕ → ℚ :=
  let h := resolution.1
  let w := resolution.2
  let params := get_patient_anatomy_params patient_id "CT"
  let mask := maskAt params.center params.axes params.angle
  let bgd := drawGrid (normalDraw (1/20) (1/100)) h w params.rng
  let bg := fun i j => clip01 (at2 bgd.1 i j)
  let si := FIBROSIS_STAGES.indexOf fibrosis_stage
  let liver_mean : ℚ := 1/2 + (1/20) * si
  let lid := drawGrid (normalDraw liver_mean (1/50)) h w bgd.2
  let li0 := fun i j => at2 lid.1 i j
  let spotted :=
    if 3 ≤ si then
      let nsp := poissonDraw 3 lid.2
      applySpots mask h w 2 5 (3/10) (3/5) nsp.1 li0 nsp.2
    else (li0, lid.2)
  fun i j => if mask i j then spotted.1 i j else bg i j

/-- image_generators.generate_ct_image. -/
def generate_ct_image (patient_id fibrosis_stage : String)
    (resolution : ℕ × ℕ) : Except PyError (List (List ℚ)) :=
  if fibrosis_stage ∈ FIBROSIS_STAGES then
    .ok (clipImage (materialize resolution.1 resolution.2
      (ctComposite patient_id fibrosis_stage resolution)))
  else .error .valueError

/-- Pixel computation of image_generators.generate_ultrasound_image (lines
185-230): Gamma background and Gamma speckle with stage-dependent shape and
scale, bright reflections for stage ≥ F2. -/
def ultrasoundComposite (patient_id fibrosis_stage : String)
    (resolution : ℕ × ℕ) : ℕ → ℕ → ℚ :=
  let h := resolution.1
  let w := resolution.2
  let params := get_patient_anatomy_params patient_id "Ultrasound"
  let mask := maskAt params.center params.axes params.angle
  let bgd := drawGrid (gammaDraw 1 (1/100)) h w params.rng
  let bg := fun i j => clip01 (at2 bgd.1 i j)
  let si := FIBROSIS_STAGES.indexOf fibrosis_stage
  let shp : ℚ := 2 + 1 * si
  let scl : ℚ := 1/10 + (1/50) * si
  let lid := drawGrid (gammaDraw shp scl) h w bgd.2
  let li0 := fun i j => at2 lid.1 i j
  let spotted :=
    if 2 ≤ si then
      let nsp := poissonDraw 8 lid.2
      applySpots mask h w 2 4 (1/2) 1 nsp.1 li0 nsp.2
    else (li0, lid.2)
  fun i j => if mask i j then spotted.1 i j else bg i j

/-- image_generators.generate_ultrasound_image. -/
def generate_ultrasound_image (patient_id fibrosis_stage : String)
    (resolution : ℕ × ℕ) : Except PyError (List (List ℚ)) :=
  if fibrosis_stage ∈ FIBROSIS_STAGES then
    .ok (clipImage (materialize resolution.1 resolution.2
      (ultrasoundComposite patient_id fibrosis_stage resolution)))
  else .error .valueError

/- -------------------- theorems on the image generators ------------------- -/

/-- Shape and range contract of a synthesized image: exactly h rows of
exactly w values, each in [0, 1]. -/
def imageWellFormed (img : List (List ℚ)) (h w : ℕ) : Prop :=
  img.length = h ∧ (∀ row ∈ img, row.length = w)
    ∧ ∀ row ∈ img, ∀ v ∈ row, 0 ≤ v ∧ v ≤ 1

/-! ## Theorems -/

theorem pickIdx_le_length (p : ℚ) (l : List (String × ℚ)) :
    pickIdx p l ≤ l.length := by
  induction l with
  | nil => simp [pickIdx]
  | cons hd tl ih =>
    obtain ⟨s, b⟩ := hd
    by_cases h : p ≤ b
    · simp [pickIdx, h]
    · simp [pickIdx, h]
      omega

theorem pickIdx_mono {p q : ℚ} (hpq : p ≤ q) (l : List (String × ℚ)) :
    pickIdx p l ≤ pickIdx q l := by
  induction l with
  | nil => simp [pickIdx]
  | cons hd tl ih =>
    obtain ⟨s, b⟩ := hd
    by_cases hp : p ≤ b
    · simp [pickIdx, hp]
    · have hq : ¬ q ≤ b := fun hqb => hp (le_trans hpq hqb)
      simp [pickIdx, hp, hq]
      omega

theorem chosenIdx_mono {p q : ℚ} (hpq : p ≤ q) (l : List (String × ℚ)) :
    chosenIdx p l ≤ chosenIdx q l :=
  min_le_min (pickIdx_mono hpq l) le_rfl

theorem chosenIdx_lt_length (p : ℚ) {l : List (String × ℚ)} (h : l ≠ []) :
    chosenIdx p l < l.length := by
  have hlen : 0 < l.length := List.length_pos.mpr h
  have := pickIdx_le_length p l
  unfold chosenIdx
  omega

theorem firstLE_of_pick_lt {p : ℚ} {l : List (String × ℚ)}
    (h : pickIdx p l < l.length) :
    firstLE p l = some ((l.map Prod.fst).getD (pickIdx p l) "") := by
  induction l with
  | nil => simp at h
  | cons hd tl ih =>
    obtain ⟨s, b⟩ := hd
    by_cases hp : p ≤ b
    · simp [firstLE, pickIdx, hp]
    · have h' : pickIdx p tl < tl.length := by
        simp [pickIdx, hp] at h; omega
      simp [firstLE, pickIdx, hp, ih h']

theorem firstLE_of_pick_ge {p : ℚ} {l : List (String × ℚ)}
    (h : l.length ≤ pickIdx p l) : firstLE p l = none := by
  induction l with
  | nil => simp [firstLE]
  | cons hd tl ih =>
    obtain ⟨s, b⟩ := hd
    by_cases hp : p ≤ b
    · simp [pickIdx, hp] at h
    · have h' : tl.length ≤ pickIdx p tl := by
        simp [pickIdx, hp] at h; omega
      simp [firstLE, hp, ih h']

theorem map_fst_cumFrom (c : ℚ) (l : List (String × ℚ)) :
    (cumFrom c l).map Prod.fst = l.map Prod.fst := by
  induction l generalizing c with
  | nil => simp [cumFrom]
  | cons hd tl ih =>
    obtain ⟨s, r⟩ := hd
    simp [cumFrom, ih]

theorem length_cumFrom (c : ℚ) (l : List (String × ℚ)) :
    (cumFrom c l).length = l.length := by
  have := congrArg List.length (map_fst_cumFrom c l)
  simpa using this

theorem getLast?_eq_getD {α : Type} [Inhabited α] {l : List α} (h : l ≠ []) :
    l.getLast? = some (l.getD (l.length - 1) default) := by
  induction l with
  | nil => exact absurd rfl h
  | cons hd tl ih =>
    cases tl with
    | nil => simp [List.getLast?]
    | cons hd' tl' =>
      rw [List.getLast?_cons_cons, ih (by simp)]
      simp [List.getD]

/-- On success, assign_split returns the key at the chosen index of the
cumulative-threshold list. -/
theorem assign_split_eq_chosen {split_ratios : List (String × ℚ)}
    (patient_index num_patients : ℕ)
    (hclose : npIsclose (ratioSum split_ratios) 1)
    (hn : num_patients ≠ 0) (hne : split_ratios ≠ []) :
    assign_split patient_index num_patients split_ratios =
      .ok ((split_ratios.map Prod.fst).getD
        (chosenIdx (((patient_index : ℚ) + 1) / (num_patients : ℚ))
          (cumFrom 0 split_ratios)) "") := by
  set p : ℚ := ((patient_index : ℚ) + 1) / (num_patients : ℚ) with hp
  have hcne : cumFrom 0 split_ratios ≠ [] := by
    intro h
    have := length_cumFrom 0 split_ratios
    rw [h] at this
    exact hne (List.eq_nil_of_length_eq_zero this.symm)
  unfold assign_split
  rw [if_neg (by simpa using hclose), if_neg hn]
  by_cases hlt : pickIdx p (cumFrom 0 split_ratios) < (cumFrom 0 split_ratios).length
  · rw [firstLE_of_pick_lt hlt]
    have : chosenIdx p (cumFrom 0 split_ratios) = pickIdx p (cumFrom 0 split_ratios) := by
      unfold chosenIdx
      have := length_cumFrom 0 split_ratios
      omega
    rw [this, map_fst_cumFrom]
  · push_neg at hlt
    rw [firstLE_of_pick_ge hlt]
    have hchosen : chosenIdx p (cumFrom 0 split_ratios) =
        (cumFrom 0 split_ratios).length - 1 := by
      unfold chosenIdx; omega
    have hkeysne : split_ratios.map Prod.fst ≠ [] := by
      simpa using hne
    rw [getLast?_eq_getD hkeysne]
    rw [hchosen, length_cumFrom]
    have : (split_ratios.map Prod.fst).length = split_ratios.length := by simp
    rw [← this]
    rfl

theorem ratioSum_pos {l : List (String × ℚ)} (hne : l ≠ [])
    (hpos : ∀ x ∈ l, 0 < x.2) : 0 < ratioSum l := by
  induction l with
  | nil => exact absurd rfl hne
  | cons hd tl ih =>
    rcases List.eq_nil_or_concat tl with htl | _
    · subst htl
      simpa [ratioSum] using hpos hd (by simp)
    · have h1 : 0 < hd.2 := hpos hd (by simp)
      have h2 : 0 < ratioSum tl := by
        apply ih
        · rintro rfl; simp_all
        · intro x hx; exact hpos x (by simp [hx])
      have : ratioSum (hd :: tl) = hd.2 + ratioSum tl := by
        simp [ratioSum]
      rw [this]; positivity

theorem firstLE_boundary {l : List (String × ℚ)} (c : ℚ) (hne : l ≠ [])
    (hpos : ∀ x ∈ l, 0 < x.2) :
    firstLE (c + ratioSum l) (cumFrom c l) = some ((l.map Prod.fst).getLastD "") := by
  induction l generalizing c with
  | nil => exact absurd rfl hne
  | cons hd tl ih =>
    obtain ⟨s, r⟩ := hd
    cases tl with
    | nil => simp [cumFrom, firstLE, ratioSum]
    | cons hd' tl' =>
      have hsumpos : 0 < ratioSum (hd' :: tl') :=
        ratioSum_pos (by simp) (fun x hx => hpos x (by simp [hx]))
      have hsum : ratioSum ((s, r) :: hd' :: tl') = r + ratioSum (hd' :: tl') := by
        simp [ratioSum]
      have hnotle : ¬ (c + ratioSum ((s, r) :: hd' :: tl') ≤ c + r) := by
        rw [hsum]; linarith
      have hrec := ih (c := c + r) (by simp) (fun x hx => hpos x (by simp [hx]))
      have harg : c + ratioSum ((s, r) :: hd' :: tl') =
          c + r + ratioSum (hd' :: tl') := by rw [hsum]; ring
      have hstep : cumFrom c ((s, r) :: hd' :: tl') =
          (s, c + r) :: cumFrom (c + r) (hd' :: tl') := rfl
      have hstep2 : firstLE (c + ratioSum ((s, r) :: hd' :: tl'))
          ((s, c + r) :: cumFrom (c + r) (hd' :: tl')) =
          if c + ratioSum ((s, r) :: hd' :: tl') ≤ c + r then some s
          else firstLE (c + ratioSum ((s, r) :: hd' :: tl'))
            (cumFrom (c + r) (hd' :: tl')) := rfl
      rw [hstep, hstep2, if_neg hnotle, harg, hrec]
      simp

theorem indexOf_getD {l : List String} (hnd : l.Nodup) :
    ∀ {j : ℕ}, j < l.length → l.indexOf (l.getD j "") = j := by
  induction l with
  | nil => intro j hj; simp at hj
  | cons hd tl ih =>
    intro j hj
    rcases List.nodup_cons.mp hnd with ⟨hmem, hnd'⟩
    cases j with
    | zero => simp [List.indexOf_cons_self]
    | succ j' =>
      have hj' : j' < tl.length := by simpa using hj
      have hx : tl.getD j' "" ∈ tl := by
        rw [List.getD_eq_getElem _ _ hj']
        exact List.getElem_mem _
      have hne : tl.getD j' "" ≠ hd := fun h => hmem (h ▸ hx)
      rw [List.getD_cons_succ, List.indexOf_cons_ne _ (Ne.symm hne), ih hnd' hj']

/-- C2, as stated, is false: the mapping train=0.5, val=0.500001 sums to
1.000001, outside the claimed ±1e-9 tolerance, yet assign_split does not
raise — it returns the split "val" — because numpy.isclose's default
tolerance is atol + rtol·|1.0| = 1e-8 + 1e-5. -/
theorem assign_split_tolerance_cex :
    ¬ (|ratioSum [("train", (1:ℚ)/2), ("val", 500001/1000000)] - 1| ≤ 1/1000000000)
    ∧ assign_split 0 1 [("train", (1:ℚ)/2), ("val", 500001/1000000)] = .ok "val" := by
  constructor
  · rw [abs_le]
    norm_num [ratioSum]
  · unfold assign_split
    rw [if_neg (not_not_intro (by rw [npIsclose, abs_le]; norm_num [ratioSum, NP_ATOL, NP_RTOL]))]
    norm_num [cumFrom, firstLE]

/-- C2 (amended): assign_split validates its ratio mapping eagerly, before any
assignment: whenever the ratio values do not sum to 1.0 within numpy.isclose's
default tolerance (|sum - 1| ≤ 1e-8 + 1e-5·|1.0|), the call raises (ValueError,
the spec's ConfigurationError) and returns no split, for every index and total
count; in particular a mapping whose ratios sum to 0.9 raises. -/
theorem assign_split_invalid_sum_raises (i N : ℕ) (ratios : List (String × ℚ))
    (h : ¬ npIsclose (ratioSum ratios) 1) :
    assign_split i N ratios = .error .valueError := by
  unfold assign_split
  rw [if_pos h]

theorem assign_split_invalid_sum_raises_witness :
    ¬ npIsclose (ratioSum [("train", (9:ℚ)/20), ("val", 9/20)]) 1
    ∧ assign_split 3 10 [("train", (9:ℚ)/20), ("val", 9/20)] = .error .valueError :=
  ⟨by rw [npIsclose, abs_le]; norm_num [ratioSum, NP_ATOL, NP_RTOL],
    assign_split_invalid_sum_raises 3 10 _
      (by rw [npIsclose, abs_le]; norm_num [ratioSum, NP_ATOL, NP_RTOL])⟩

/-- C3, as stated, is false: the mapping a=1.0, b=0.0 sums to exactly 1.0, yet
assign_split(N-1, N, ratios) with N = 1 returns "a", the first split, not the
last split "b", because the cumulative threshold already reaches 1.0 at "a". -/
theorem assign_split_last_cex :
    ratioSum [("a", (1:ℚ)), ("b", 0)] = 1
    ∧ assign_split 0 1 [("a", (1:ℚ)), ("b", 0)] = .ok "a"
    ∧ ([("a", (1:ℚ)), ("b", 0)].map Prod.fst).getLast? = some "b"
    ∧ "a" ≠ "b" := by
  refine ⟨by norm_num [ratioSum], ?_, by decide, by decide⟩
  unfold assign_split
  rw [if_neg (not_not_intro (by rw [npIsclose, abs_le]; norm_num [ratioSum, NP_ATOL, NP_RTOL]))]
  norm_num [cumFrom, firstLE]

/-- C3 (amended): for every total count N ≥ 1 and every split-ratio mapping
with strictly positive ratios summing to 1.0, assign_split(N-1, N, ratios)
returns the last split name in the mapping's declaration order. -/
theorem assign_split_boundary_last (ratios : List (String × ℚ)) (N : ℕ)
    (hN : 1 ≤ N) (hpos : ∀ x ∈ ratios, 0 < x.2) (hsum : ratioSum ratios = 1) :
    assign_split (N - 1) N ratios = .ok ((ratios.map Prod.fst).getLastD "") := by
  have hne : ratios ≠ [] := by
    rintro rfl
    simp [ratioSum] at hsum
  have hNq : (N : ℚ) ≠ 0 := Nat.cast_ne_zero.mpr (by omega)
  have hposition : (((N - 1 : ℕ) : ℚ) + 1) / (N : ℚ) = 1 := by
    rw [Nat.cast_sub hN]
    field_simp
  unfold assign_split
  rw [if_neg (not_not_intro (by
        rw [hsum, npIsclose, abs_le]; norm_num [NP_ATOL, NP_RTOL])),
    if_neg (by omega)]
  rw [hposition,
    show (1 : ℚ) = 0 + ratioSum ratios by rw [hsum]; ring,
    firstLE_boundary 0 hne hpos]

theorem assign_split_boundary_last_witness :
    1 ≤ 10 ∧ (∀ x ∈ SPLIT_RATIOS, 0 < x.2) ∧ ratioSum SPLIT_RATIOS = 1
    ∧ assign_split (10 - 1) 10 SPLIT_RATIOS =
        .ok ((SPLIT_RATIOS.map Prod.fst).getLastD "") :=
  ⟨by decide, by norm_num [SPLIT_RATIOS], by norm_num [ratioSum, SPLIT_RATIOS],
    assign_split_boundary_last SPLIT_RATIOS 10 (by decide)
      (by norm_num [SPLIT_RATIOS]) (by norm_num [ratioSum, SPLIT_RATIOS])⟩

/-- C4: for every split-ratio mapping (distinct names) summing to 1.0, every
total count N ≥ 1 and indices i1 < i2 < N, assign_split is monotonic in the
index: both calls succeed, and the rank (position in declaration order) of the
split of i1 is at most the rank of the split of i2. -/
theorem assign_split_monotone_rank (ratios : List (String × ℚ)) (N i1 i2 : ℕ)
    (hnd : (ratios.map Prod.fst).Nodup) (hsum : ratioSum ratios = 1)
    (h12 : i1 < i2) (h2 : i2 < N) :
    ∃ s1 s2, assign_split i1 N ratios = .ok s1 ∧ assign_split i2 N ratios = .ok s2
      ∧ (ratios.map Prod.fst).indexOf s1 ≤ (ratios.map Prod.fst).indexOf s2 := by
  have hne : ratios ≠ [] := by
    rintro rfl
    simp [ratioSum] at hsum
  have hclose : npIsclose (ratioSum ratios) 1 := by
    rw [hsum, npIsclose, abs_le]; norm_num [NP_ATOL, NP_RTOL]
  have hN : N ≠ 0 := by omega
  have hNpos : (0 : ℚ) < (N : ℚ) := by
    have : 0 < N := by omega
    exact_mod_cast this
  have hp12 : ((i1 : ℚ) + 1) / (N : ℚ) ≤ ((i2 : ℚ) + 1) / (N : ℚ) := by
    apply div_le_div_of_nonneg_right ?_ (le_of_lt hNpos)
    have : (i1 : ℚ) ≤ (i2 : ℚ) := by exact_mod_cast Nat.le_of_lt h12
    linarith
  have hcne : cumFrom 0 ratios ≠ [] := by
    intro h
    have := length_cumFrom 0 ratios
    rw [h] at this
    exact hne (List.eq_nil_of_length_eq_zero this.symm)
  have hj1 := chosenIdx_lt_length (((i1 : ℚ) + 1) / (N : ℚ)) hcne
  have hj2 := chosenIdx_lt_length (((i2 : ℚ) + 1) / (N : ℚ)) hcne
  have hlen : (cumFrom 0 ratios).length = (ratios.map Prod.fst).length := by
    rw [length_cumFrom]; simp
  refine ⟨_, _, assign_split_eq_chosen i1 N hclose hN hne,
    assign_split_eq_chosen i2 N hclose hN hne, ?_⟩
  rw [indexOf_getD hnd (by omega), indexOf_getD hnd (by omega)]
  exact chosenIdx_mono hp12 _

theorem assign_split_monotone_rank_witness :
    (SPLIT_RATIOS.map Prod.fst).Nodup ∧ ratioSum SPLIT_RATIOS = 1 ∧ 2 < 9 ∧ 9 < 10
    ∧ ∃ s1 s2, assign_split 2 10 SPLIT_RATIOS = .ok s1
      ∧ assign_split 9 10 SPLIT_RATIOS = .ok s2
      ∧ (SPLIT_RATIOS.map Prod.fst).indexOf s1 ≤ (SPLIT_RATIOS.map Prod.fst).indexOf s2 :=
  ⟨by decide, by norm_num [ratioSum, SPLIT_RATIOS], by decide, by decide,
    assign_split_monotone_rank SPLIT_RATIOS 10 2 9 (by decide)
      (by norm_num [ratioSum, SPLIT_RATIOS]) (by decide) (by decide)⟩

/-- C10: assign_split does not guard against a zero total count.  For every
index and every ratio mapping that passes the numpy.isclose sum validation,
the call with num_patients = 0 fails with a division error (Python
ZeroDivisionError from (patient_index + 1) / num_patients) instead of
returning a split name. -/
theorem assign_split_zero_total_div_error (i : ℕ) (ratios : List (String × ℚ))
    (h : npIsclose (ratioSum ratios) 1) :
    assign_split i 0 ratios = .error .zeroDivisionError := by
  unfold assign_split
  rw [if_neg (not_not_intro h)]
  rfl

theorem assign_split_zero_total_div_error_witness :
    npIsclose (ratioSum SPLIT_RATIOS) 1
    ∧ assign_split 5 0 SPLIT_RATIOS = .error .zeroDivisionError :=
  ⟨by rw [npIsclose, abs_le]; norm_num [ratioSum, SPLIT_RATIOS, NP_ATOL, NP_RTOL],
    assign_split_zero_total_div_error 5 SPLIT_RATIOS
      (by rw [npIsclose, abs_le]; norm_num [ratioSum, SPLIT_RATIOS, NP_ATOL, NP_RTOL])⟩

theorem randDraw_nonneg (r : RandomState) : 0 ≤ (randDraw r).1 := by
  unfold randDraw
  positivity

theorem randDraw_lt_one (r : RandomState) : (randDraw r).1 < 1 := by
  unfold randDraw
  rw [div_lt_one (by norm_num)]
  have hlt : r.next.state < 18446744073709551616 := by
    unfold RandomState.next
    exact Nat.mod_lt _ (by norm_num)
  have : r.next.state >>> 11 < 9007199254740992 := by
    rw [Nat.shiftRight_eq_div_pow]
    omega
  exact_mod_cast this

/- -------------------- theorems on the labels generator -------------------- -/

theorem assign_split_config_ok (idx : ℕ) :
    ∃ s, assign_split idx NUM_PATIENTS SPLIT_RATIOS = .ok s := by
  refine ⟨_, assign_split_eq_chosen idx NUM_PATIENTS ?_ (by norm_num [NUM_PATIENTS])
    (by simp [SPLIT_RATIOS])⟩
  rw [npIsclose, abs_le]
  norm_num [ratioSum, SPLIT_RATIOS, NP_ATOL, NP_RTOL]

/-- Every call of generate_patient_labels succeeds, and the split field of the
produced record is exactly the result of assign_split on the patient index
with the configured NUM_PATIENTS and SPLIT_RATIOS constants. -/
theorem generate_patient_labels_split (idx : ℕ) (rng : RandomState) :
    ∃ pr s, generate_patient_labels idx rng = .ok pr ∧ pr.split = s
      ∧ assign_split idx NUM_PATIENTS SPLIT_RATIOS = .ok s := by
  obtain ⟨s, hs⟩ := assign_split_config_ok idx
  unfold generate_patient_labels
  rw [hs]
  exact ⟨_, s, rfl, rfl, rfl⟩

/-- Structure of genLabelsLoop: it always succeeds, produces one record per
index, and the record for loop offset k carries the split assigned by
assign_split(idx + k, NUM_PATIENTS, SPLIT_RATIOS). -/
theorem genLabelsLoop_split : ∀ (n idx : ℕ) (r : RandomState),
    ∃ rs, genLabelsLoop n idx r = .ok rs ∧ rs.length = n
      ∧ ∀ k pr, rs.get? k = some pr →
          assign_split (idx + k) NUM_PATIENTS SPLIT_RATIOS = .ok pr.split := by
  intro n
  induction n with
  | zero =>
    intro idx r
    exact ⟨[], rfl, rfl, by intro k pr h; simp at h⟩
  | succ n ih =>
    intro idx r
    obtain ⟨pr0, s0, hpr0, hsplit0, hok0⟩ :=
      generate_patient_labels_split idx ⟨(randintDraw 0 (2147483648 - 1) r).1⟩
    obtain ⟨rest, hrest, hlen, htail⟩ := ih (idx + 1) (randintDraw 0 (2147483648 - 1) r).2
    refine ⟨pr0 :: rest, ?_, by simp [hlen], ?_⟩
    · show (match generate_patient_labels idx ⟨(randintDraw 0 (2147483648 - 1) r).1⟩ with
        | .error e => .error e
        | .ok pr =>
          match genLabelsLoop n (idx + 1) (randintDraw 0 (2147483648 - 1) r).2 with
          | .error e => .error e
          | .ok rest => .ok (pr :: rest)) = Except.ok (pr0 :: rest)
      rw [hpr0, hrest]
    · intro k pr hk
      cases k with
      | zero =>
        simp at hk
        subst hk
        simpa [hsplit0] using hok0
      | succ k' =>
        simp only [List.get?_cons_succ] at hk
        have := htail k' pr hk
        rw [show idx + 1 + k' = idx + (k' + 1) by omega] at this
        exact this

/-- Concrete evaluation: assign_split 0 1 SPLIT_RATIOS = "test". -/
theorem assign_split_one_patient :
    assign_split 0 1 SPLIT_RATIOS = .ok "test" := by
  unfold assign_split
  rw [if_neg (not_not_intro (by
    rw [npIsclose, abs_le]; norm_num [ratioSum, SPLIT_RATIOS, NP_ATOL, NP_RTOL]))]
  norm_num [SPLIT_RATIOS, cumFrom, firstLE]

/-- Concrete evaluation: assign_split 0 NUM_PATIENTS SPLIT_RATIOS = "train". -/
theorem assign_split_config_zero :
    assign_split 0 NUM_PATIENTS SPLIT_RATIOS = .ok "train" := by
  unfold assign_split
  rw [if_neg (not_not_intro (by
    rw [npIsclose, abs_le]; norm_num [ratioSum, SPLIT_RATIOS, NP_ATOL, NP_RTOL]))]
  norm_num [SPLIT_RATIOS, NUM_PATIENTS, cumFrom, firstLE]

/-- C1 is a code bug: generate_all_labels(1, 42) assigns its only record the
split "train" because generate_patient_labels passes the configured constant
NUM_PATIENTS = 1000 to assign_split, whereas the claim (and spec §4.2/§8)
require assign_split(0, 1, SPLIT_RATIOS), which returns "test". -/
theorem generate_all_labels_split_cex :
    (∃ rs, generate_all_labels 1 42 = .ok rs
      ∧ rs.map PatientRecord.split = ["train"])
    ∧ assign_split 0 1 SPLIT_RATIOS = .ok "test"
    ∧ ("train" : String) ≠ "test" := by
  refine ⟨?_, assign_split_one_patient, by decide⟩
  obtain ⟨rs, hrs, hlen, hsplit⟩ := genLabelsLoop_split 1 0 ⟨42⟩
  obtain ⟨pr, hpr⟩ := List.length_eq_one.mp hlen
  subst hpr
  refine ⟨[pr], hrs, ?_⟩
  have h0 := hsplit 0 pr (by simp)
  simp only [Nat.add_zero] at h0
  rw [assign_split_config_zero] at h0
  have hsp : pr.split = "train" := (Except.ok.inj h0).symm
  simp [hsp]

/-- C5: generate_all_labels is deterministic in its inputs: two runs with the
same num_patients and seed produce identical output tables (same rows, same
values, same order). -/
theorem generate_all_labels_deterministic (num_patients seed : ℕ)
    (t1 t2 : Except PyError (List PatientRecord))
    (h1 : generate_all_labels num_patients seed = t1)
    (h2 : generate_all_labels num_patients seed = t2) : t1 = t2 :=
  h1 ▸ h2 ▸ rfl

theorem generate_all_labels_deterministic_witness :
    generate_all_labels 10 42 = generate_all_labels 10 42
    ∧ generate_all_labels 10 42 = generate_all_labels 10 42 :=
  ⟨rfl, generate_all_labels_deterministic 10 42 _ _ rfl rfl⟩

/-- C6: in every record produced by generate_patient_labels, the binary label
is a pure function of the fibrosis stage: it is "positive" iff the stage is
F3 or F4, and "negative" otherwise; it is never drawn from the random
stream. -/
theorem generate_patient_labels_binary (idx : ℕ) (rng : RandomState) :
    ∃ pr, generate_patient_labels idx rng = .ok pr
      ∧ (pr.binary_label = "positive" ↔ pr.fibrosis_stage ∈ (["F3", "F4"] : List String))
      ∧ (pr.binary_label = "positive" ∨ pr.binary_label = "negative") := by
  obtain ⟨s, hs⟩ := assign_split_config_ok idx
  unfold generate_patient_labels
  rw [hs]
  refine ⟨_, rfl, ?_, ?_⟩
  · show (if (choiceDraw FIBROSIS_STAGES FIBROSIS_PROBS rng).1 ∈ BINARY_POSITIVE_STAGES
        then "positive" else "negative") = "positive" ↔ _
    by_cases hmem : (choiceDraw FIBROSIS_STAGES FIBROSIS_PROBS rng).1 ∈ BINARY_POSITIVE_STAGES
    · simp only [if_pos hmem]
      simpa [BINARY_POSITIVE_STAGES] using hmem
    · simp only [if_neg hmem]
      constructor
      · intro h
        exact absurd h (by decide)
      · intro h
        exact absurd (by simpa [BINARY_POSITIVE_STAGES] using h) hmem
  · show (if (choiceDraw FIBROSIS_STAGES FIBROSIS_PROBS rng).1 ∈ BINARY_POSITIVE_STAGES
        then "positive" else "negative") = "positive" ∨ _
    by_cases hmem : (choiceDraw FIBROSIS_STAGES FIBROSIS_PROBS rng).1 ∈ BINARY_POSITIVE_STAGES
    · left; simp [hmem]
    · right; simp [hmem]

/- -------------------- theorems on anatomy derivation --------------------- -/

/-- C7: a patient's anatomy parameters (center, axes, rotation angle,
intensity base) are identical across modalities: the modality argument of
_get_patient_anatomy_params does not influence the derivation. -/
theorem anatomy_cross_modality_consistent (patient_id m1 m2 : String) :
    (get_patient_anatomy_params patient_id m1).center
        = (get_patient_anatomy_params patient_id m2).center
    ∧ (get_patient_anatomy_params patient_id m1).axes
        = (get_patient_anatomy_params patient_id m2).axes
    ∧ (get_patient_anatomy_params patient_id m1).angle
        = (get_patient_anatomy_params patient_id m2).angle
    ∧ (get_patient_anatomy_params patient_id m1).intensity_base
        = (get_patient_anatomy_params patient_id m2).intensity_base :=
  ⟨rfl, rfl, rfl, rfl⟩

theorem nthUnit_nonneg (s : RandomState) (k : ℕ) : 0 ≤ nthUnit s k := by
  unfold nthUnit
  positivity

theorem nthUnit_lt_one (s : RandomState) {k : ℕ} (hk : 1 ≤ k) : nthUnit s k < 1 := by
  obtain ⟨k', rfl⟩ : ∃ k', k = k' + 1 := ⟨k - 1, by omega⟩
  unfold nthUnit
  rw [Function.iterate_succ_apply']
  rw [div_lt_one (by norm_num)]
  have hlt : (RandomState.next (RandomState.next^[k'] s)).state < 18446744073709551616 := by
    unfold RandomState.next
    exact Nat.mod_lt _ (by norm_num)
  have : (RandomState.next (RandomState.next^[k'] s)).state >>> 11 < 9007199254740992 := by
    rw [Nat.shiftRight_eq_div_pow]
    omega
  exact_mod_cast this

theorem floor_scale_bounds {M a b u : ℚ} (hM : 0 < M) (ha : 0 ≤ a) (hb : 0 < b)
    (h0 : 0 ≤ u) (h1 : u < 1) :
    M * a - 1 < (⌊M * (a + b * u)⌋₊ : ℚ) ∧ (⌊M * (a + b * u)⌋₊ : ℚ) < M * (a + b) := by
  have hq0 : 0 ≤ M * (a + b * u) := by positivity
  have hle : (⌊M * (a + b * u)⌋₊ : ℚ) ≤ M * (a + b * u) := Nat.floor_le hq0
  have hlt : M * (a + b * u) < (⌊M * (a + b * u)⌋₊ : ℚ) + 1 := Nat.lt_floor_add_one _
  constructor
  · nlinarith [mul_nonneg (mul_nonneg hM.le hb.le) h0]
  · nlinarith [mul_lt_mul_of_pos_left h1 (mul_pos hM hb)]

/-- Structural form of the anatomy draws: each parameter consumes the unit
draws of the stream at the fixed positions 1..6, and the stream handed on to
the modality generators has advanced by exactly six steps. -/
theorem anatomyFromStream_draws (s : RandomState) :
    anatomyFromStream s =
      ⟨(⌊(256 : ℚ) * (2/5 + 1/5 * nthUnit s 2)⌋₊, ⌊(256 : ℚ) * (2/5 + 1/5 * nthUnit s 1)⌋₊),
       (⌊(256 : ℚ) * (1/5 + 1/10 * nthUnit s 3)⌋₊,
        ⌊(⌊(256 : ℚ) * (1/5 + 1/10 * nthUnit s 3)⌋₊ : ℚ) * (3/5 + 3/10 * nthUnit s 4)⌋₊),
       -30 + (30 - (-30)) * nthUnit s 5,
       1/2 + (4/5 - 1/2) * nthUnit s 6,
       RandomState.next^[6] s⟩ := rfl

/-- At the zero-seeded stream, the fifth and sixth unit draws differ, so
drawing angle and intensity in swapped order produces a different anatomy. -/
theorem anatomy_swap_example :
    anatomySwappedFromStream ⟨0⟩ ≠ anatomyFromStream ⟨0⟩ := by
  intro heq
  have h := congrArg AnatomyParams.angle heq
  simp only [anatomySwappedFromStream, anatomyFromStream] at h
  simp only [uniformDraw, randDraw, RandomState.next, Nat.shiftRight_eq_div_pow] at h
  norm_num at h

/-- C9: anatomy derivation seeds an isolated stream with the SHA-256 hash of
the key "{patient_id}_anatomy" truncated into 32-bit range; it draws the
parameters in the fixed contractual order — the center coordinates consume
unit draws 1 and 2, the major axis draw 3, the minor axis draw 4, the
rotation angle draw 5 and the intensity base draw 6 — with the contractual
ranges (center within [0.4, 0.6] of the MRI-reference dimension 256, major
axis within [0.20, 0.30]·min(h,w), minor axis within [0.6, 0.9]·major, angle
in [-30, 30), intensity base in [0.5, 0.8)); and a re-implementation drawing
the angle and intensity base in a different order produces different
anatomy. -/
theorem anatomy_seed_order_contract :
    (∀ pid m, get_patient_anatomy_params pid m
        = anatomyFromStream ⟨sha256Nat (pid ++ "_anatomy") % 4294967296⟩)
    ∧ (∀ s : RandomState, anatomyFromStream s =
        ⟨(⌊(256 : ℚ) * (2/5 + 1/5 * nthUnit s 2)⌋₊, ⌊(256 : ℚ) * (2/5 + 1/5 * nthUnit s 1)⌋₊),
         (⌊(256 : ℚ) * (1/5 + 1/10 * nthUnit s 3)⌋₊,
          ⌊(⌊(256 : ℚ) * (1/5 + 1/10 * nthUnit s 3)⌋₊ : ℚ) * (3/5 + 3/10 * nthUnit s 4)⌋₊),
         -30 + (30 - (-30)) * nthUnit s 5,
         1/2 + (4/5 - 1/2) * nthUnit s 6,
         RandomState.next^[6] s⟩)
    ∧ (∀ s : RandomState,
        (2/5 : ℚ) * 256 - 1 < ((anatomyFromStream s).center.2 : ℚ)
        ∧ ((anatomyFromStream s).center.2 : ℚ) < (2/5 + 1/5) * 256
        ∧ (2/5 : ℚ) * 256 - 1 < ((anatomyFromStream s).center.1 : ℚ)
        ∧ ((anatomyFromStream s).center.1 : ℚ) < (2/5 + 1/5) * 256
        ∧ (1/5 : ℚ) * 256 - 1 < ((anatomyFromStream s).axes.1 : ℚ)
        ∧ ((anatomyFromStream s).axes.1 : ℚ) < (1/5 + 1/10) * 256
        ∧ (3/5) * ((anatomyFromStream s).axes.1 : ℚ) - 1 < ((anatomyFromStream s).axes.2 : ℚ)
        ∧ ((anatomyFromStream s).axes.2 : ℚ) < (3/5 + 3/10) * ((anatomyFromStream s).axes.1 : ℚ)
        ∧ -30 ≤ (anatomyFromStream s).angle ∧ (anatomyFromStream s).angle < 30
        ∧ 1/2 ≤ (anatomyFromStream s).intensity_base
        ∧ (anatomyFromStream s).intensity_base < 4/5)
    ∧ (∃ s : RandomState, anatomySwappedFromStream s ≠ anatomyFromStream s) := by
  refine ⟨fun _ _ => rfl, fun s => anatomyFromStream_draws s, ?_, ⟨⟨0⟩, anatomy_swap_example⟩⟩
  intro s
  have h1 := nthUnit_nonneg s 1
  have h1' := nthUnit_lt_one s (k := 1) (by omega)
  have h2 := nthUnit_nonneg s 2
  have h2' := nthUnit_lt_one s (k := 2) (by omega)
  have h3 := nthUnit_nonneg s 3
  have h3' := nthUnit_lt_one s (k := 3) (by omega)
  have h4 := nthUnit_nonneg s 4
  have h4' := nthUnit_lt_one s (k := 4) (by omega)
  have h5 := nthUnit_nonneg s 5
  have h5' := nthUnit_lt_one s (k := 5) (by omega)
  have h6 := nthUnit_nonneg s 6
  have h6' := nthUnit_lt_one s (k := 6) (by omega)
  rw [anatomyFromStream_draws s]
  dsimp only
  have hcx := floor_scale_bounds (M := 256) (a := 2/5) (b := 1/5)
    (by norm_num) (by norm_num) (by norm_num) h1 h1'
  have hcy := floor_scale_bounds (M := 256) (a := 2/5) (b := 1/5)
    (by norm_num) (by norm_num) (by norm_num) h2 h2'
  have hmaj := floor_scale_bounds (M := 256) (a := 1/5) (b := 1/10)
    (by norm_num) (by norm_num) (by norm_num) h3 h3'
  have hmajpos : (0 : ℚ) < (⌊(256 : ℚ) * (1/5 + 1/10 * nthUnit s 3)⌋₊ : ℚ) := by
    have := hmaj.1
    linarith
  have hmin := floor_scale_bounds (M := (⌊(256 : ℚ) * (1/5 + 1/10 * nthUnit s 3)⌋₊ : ℚ))
    (a := 3/5) (b := 3/10) hmajpos (by norm_num) (by norm_num) h4 h4'
  have hang1 : (0 : ℚ) ≤ (30 - (-30)) * nthUnit s 5 :=
    mul_nonneg (by norm_num) h5
  have hang2 : (30 - (-30) : ℚ) * nthUnit s 5 < 60 := by
    have := mul_lt_mul_of_pos_left h5' (show (0 : ℚ) < 60 by norm_num)
    linarith
  have hib1 : (0 : ℚ) ≤ (4/5 - 1/2) * nthUnit s 6 :=
    mul_nonneg (by norm_num) h6
  have hib2 : (4/5 - 1/2 : ℚ) * nthUnit s 6 < 3/10 := by
    have := mul_lt_mul_of_pos_left h6' (show (0 : ℚ) < 3/10 by norm_num)
    linarith
  refine ⟨by linarith [hcx.1], by linarith [hcx.2], by linarith [hcy.1],
    by linarith [hcy.2], by linarith [hmaj.1], by linarith [hmaj.2],
    by linarith [hmin.1], by linarith [hmin.2], by linarith, by linarith,
    by linarith, by linarith⟩

theorem clip01_mem (x : ℚ) : 0 ≤ clip01 x ∧ clip01 x ≤ 1 := by
  unfold clip01
  constructor
  · exact le_max_left 0 _
  · exact max_le (by norm_num) (min_le_left 1 x)

theorem clipImage_materialize_wellFormed (h w : ℕ) (f : ℕ → ℕ → ℚ) :
    imageWellFormed (clipImage (materialize h w f)) h w := by
  refine ⟨by simp [clipImage, materialize], ?_, ?_⟩
  · intro row hrow
    simp [clipImage, materialize] at hrow
    obtain ⟨i, _, hrow⟩ := hrow
    subst hrow
    simp
  · intro row hrow v hv
    simp [clipImage, materialize] at hrow
    obtain ⟨i, _, hrow⟩ := hrow
    subst hrow
    simp only [List.mem_map] at hv
    obtain ⟨j, _, hv⟩ := hv
    subst hv
    exact clip01_mem (f i j)

/-- C8: for every patient identifier and every fibrosis stage F0..F4, each
modality generator, at its configured resolution (MRI 256×256, CT 512×512,
Ultrasound 224×224), returns an image of exactly that shape with every value
in [0, 1]. -/
theorem image_generators_shape_bounds (patient_id fibrosis_stage : String)
    (hs : fibrosis_stage ∈ FIBROSIS_STAGES) :
    (∃ img, generate_mri_image patient_id fibrosis_stage (256, 256) = .ok img
      ∧ imageWellFormed img 256 256)
    ∧ (∃ img, generate_ct_image patient_id fibrosis_stage (512, 512) = .ok img
      ∧ imageWellFormed img 512 512)
    ∧ (∃ img, generate_ultrasound_image patient_id fibrosis_stage (224, 224) = .ok img
      ∧ imageWellFormed img 224 224) := by
  refine ⟨⟨_, ?_, clipImage_materialize_wellFormed 256 256
      (mriComposite patient_id fibrosis_stage (256, 256))⟩,
    ⟨_, ?_, clipImage_materialize_wellFormed 512 512
      (ctComposite patient_id fibrosis_stage (512, 512))⟩,
    ⟨_, ?_, clipImage_materialize_wellFormed 224 224
      (ultrasoundComposite patient_id fibrosis_stage (224, 224))⟩⟩
  · unfold generate_mri_image
    rw [if_pos hs]
  · unfold generate_ct_image
    rw [if_pos hs]
  · unfold generate_ultrasound_image
    rw [if_pos hs]

theorem image_generators_shape_bounds_witness :
    ("F3" ∈ FIBROSIS_STAGES)
    ∧ ((∃ img, generate_mri_image "PAT_0000" "F3" (256, 256) = .ok img
        ∧ imageWellFormed img 256 256)
      ∧ (∃ img, generate_ct_image "PAT_0000" "F3" (512, 512) = .ok img
        ∧ imageWellFormed img 512 512)
      ∧ (∃ img, generate_ultrasound_image "PAT_0000" "F3" (224, 224) = .ok img
        ∧ imageWellFormed img 224 224)) :=
  ⟨by decide, image_generators_shape_bounds "PAT_0000" "F3" (by decide)⟩

end LiverDataset
